import Mathlib

/-!
Shallow embedding of the image-processing pipeline in `resize_single2.py` and
`scripts/process_image.py` (function `process_image` in both files; the two
copies are line-for-line identical in the transform part).  The pipeline is
crop → scale-to-fit → compose-on-white-canvas → band-recolor → rotate 90° CCW.

Images are modelled as a width, a height and a total pixel function
(column, row) ↦ (R, G, B); channels are naturals (the code only ever writes
8-bit values).  Pillow library calls made by the source (`Image.crop`,
`Image.resize`, `Image.paste`, `Image.rotate(90, expand=True)`) are embedded
with their documented and implemented semantics, noted on each definition.
Python's float arithmetic in the scale computation is modelled with exact
rationals; Python `//` is modelled with `Int.fdiv` (floor division) and
Python `int()` on the nonnegative products with the rational floor.
-/

/-- An (R, G, B) pixel value. -/
abbrev Pixel := Nat × Nat × Nat

/-- A raster image: dimensions plus a total pixel function (column, row) ↦ RGB.
Only coordinates with `col < width` and `row < height` are meaningful. -/
@[ext]
structure RasterImage where
  width : Nat
  height : Nat
  pix : Nat → Nat → Pixel

/-- Errors the pipeline run can abort with.  `valueError` is raised by
Pillow's `Image.crop` when the box has `right < left` or `lower < upper`;
`zeroDivisionError` is Python's error on division by zero.
`invalidCropError` is the error kind named by the specification; the code
contains no such error and never raises it. -/
inductive Err where
  | valueError : Err
  | zeroDivisionError : Err
  | invalidCropError : Err
deriving DecidableEq

/-- The crop step: the source builds
`crop_box = (m_x, m_y, width - m_x, height - m_y)` and calls `img.crop`.
Pillow's `Image.crop` raises `ValueError` if `right < left`, then if
`lower < upper`; otherwise it returns the sub-rectangle of size
`(right - left, lower - upper)`, whose pixel `(c, r)` is the source pixel
`(left + c, upper + r)`. -/
def cropImage (img : RasterImage) (mx my : Nat) : Except Err RasterImage :=
  let left : Int := mx
  let upper : Int := my
  let right : Int := (img.width : Int) - mx
  let lower : Int := (img.height : Int) - my
  if right < left then .error .valueError
  else if lower < upper then .error .valueError
  else .ok ⟨(right - left).toNat, (lower - upper).toNat,
            fun c r => img.pix (mx + c) (my + r)⟩

/-- The scale factor `scale = min(output_width / cropped_width,
output_height / cropped_height)` computed by the source, with Python's real
division modelled exactly on the rationals. -/
def computeScale (cw ch tw th : Nat) : ℚ :=
  min ((tw : ℚ) / (cw : ℚ)) ((th : ℚ) / (ch : ℚ))

/-- Pillow's `Image.resize(size, LANCZOS)`: when the requested size equals the
current size (and the box is the whole image, as here) Pillow returns a copy,
so the pixel content is unchanged; otherwise it resamples with the Lanczos
kernel, whose pixel content is kept as the parameter `resample` since no
claim depends on resampled pixel values. -/
def resamplePix (resample : RasterImage → Nat → Nat → Nat → Nat → Pixel)
    (img : RasterImage) (nw nh : Nat) : Nat → Nat → Pixel :=
  if nw = img.width ∧ nh = img.height then img.pix else resample img nw nh

/-- The scaling step of the source: `scale_x = output_width / cropped_width`
raises `ZeroDivisionError` when the cropped width is zero (and `scale_y`
likewise for the height); otherwise the new size is
`(int(cw * scale), int(ch * scale))` — `int()` truncates, which on these
nonnegative values is the floor — and the image is resized to it. -/
def scaleToFit (resample : RasterImage → Nat → Nat → Nat → Nat → Pixel)
    (img : RasterImage) (tw th : Nat) : Except Err RasterImage :=
  if img.width = 0 ∨ img.height = 0 then .error .zeroDivisionError
  else
    let scale := computeScale img.width img.height tw th
    let nw := (⌊(img.width : ℚ) * scale⌋).toNat
    let nh := (⌊(img.height : ℚ) * scale⌋).toNat
    .ok ⟨nw, nh, resamplePix resample img nw nh⟩

/-- The centering offset `(canvas - scaled) // 2` of the source; Python `//`
is floor division, hence `Int.fdiv`. -/
def centerOffset (canvas scaled : Nat) : Int :=
  Int.fdiv ((canvas : Int) - (scaled : Int)) 2

/-- The compose step: `Image.new('RGB', (tw, th), 'white')` followed by
`result.paste(scaled, (x, y))` with the centering offsets.  A canvas pixel
`(c, r)` is the scaled image's pixel `(c - x, r - y)` when it lies inside the
pasted rectangle (Pillow clips the paste to the canvas) and white
`(255, 255, 255)` otherwise. -/
def composeOnCanvas (scaled : RasterImage) (tw th : Nat) : RasterImage :=
  let x := centerOffset tw scaled.width
  let y := centerOffset th scaled.height
  ⟨tw, th, fun c r =>
    if x ≤ (c : Int) ∧ (c : Int) < x + (scaled.width : Int) ∧
       y ≤ (r : Int) ∧ (r : Int) < y + (scaled.height : Int)
    then scaled.pix ((c : Int) - x).toNat ((r : Int) - y).toNat
    else (255, 255, 255)⟩

/-- A pixel is near-black when every channel is strictly below the
threshold: the source tests `r < 50 and g < 50 and b < 50`. -/
def nearBlack (p : Pixel) (thr : Nat) : Bool :=
  decide (p.1 < thr) && decide (p.2.1 < thr) && decide (p.2.2 < thr)

/-- The band-recolor step: the source loops `for row in range(rowStart,
rowEnd)`, skips rows with `row >= height`, and for every column rewrites a
near-black pixel to pure red `(255, 0, 0)`.  Each iteration reads and writes
only its own pixel, so the in-place loop equals this pointwise function.
The source hard-codes `rowStart = 45`, `rowEnd = 215`, `thr = 50`. -/
def recolorBand (img : RasterImage) (rowStart rowEnd thr : Nat) : RasterImage :=
  ⟨img.width, img.height, fun c r =>
    if rowStart ≤ r ∧ r < rowEnd ∧ r < img.height ∧ c < img.width ∧
       nearBlack (img.pix c r) thr = true
    then (255, 0, 0) else img.pix c r⟩

/-- Pillow's `Image.rotate(90, expand=True)`: a 90° counter-clockwise
rotation whose output size is the swapped input size; output pixel `(c, r)`
is input pixel `(width - 1 - r, c)`, i.e. input `(col, row)` lands at output
`(row, width - 1 - col)`. -/
def rotate90 (img : RasterImage) : RasterImage :=
  ⟨img.height, img.width, fun c r => img.pix (img.width - 1 - r) c⟩

/-- The coordinate map of `rotate90` on in-range coordinates:
source `(col, row)` ↦ destination `(row, width - 1 - col)`. -/
def rotateCoord (W H : Nat) : Fin W × Fin H → Fin H × Fin W :=
  fun p => (p.2, ⟨W - 1 - p.1.val, by omega⟩)

/-- The whole transform of `process_image` (decoding, printing and saving
are I/O outside the transform): crop, scale to fit, compose on a white
canvas, recolor the band with the hard-coded constants 45, 215, 50, and
rotate 90° counter-clockwise. -/
def process_image (resample : RasterImage → Nat → Nat → Nat → Nat → Pixel)
    (img : RasterImage) (tw th mx my : Nat) : Except Err RasterImage := do
  let cropped ← cropImage img mx my
  let scaled ← scaleToFit resample cropped tw th
  let composed := composeOnCanvas scaled tw th
  let recolored := recolorBand composed 45 215 50
  return rotate90 recolored

/-- A constant-colour image, used to instantiate theorems at concrete
inputs. -/
def constImage (w h : Nat) (p : Pixel) : RasterImage :=
  ⟨w, h, fun _ _ => p⟩

/-- A trivial resampling kernel, used to instantiate theorems at concrete
inputs. -/
def constResample : RasterImage → Nat → Nat → Nat → Nat → Pixel :=
  fun _ _ _ _ _ => (0, 0, 0)


/-- Unfolding lemma for the width of `recolorBand`. -/
theorem recolorBand_width (img : RasterImage) (s e t : Nat) :
    (recolorBand img s e t).width = img.width := rfl

/-- Unfolding lemma for the height of `recolorBand`. -/
theorem recolorBand_height (img : RasterImage) (s e t : Nat) :
    (recolorBand img s e t).height = img.height := rfl

/-- Unfolding lemma for one pixel of `recolorBand`. -/
theorem recolorBand_pix (img : RasterImage) (s e t c r : Nat) :
    (recolorBand img s e t).pix c r =
      if s ≤ r ∧ r < e ∧ r < img.height ∧ c < img.width ∧
         nearBlack (img.pix c r) t = true
      then (255, 0, 0) else img.pix c r := rfl

/-- C3: with the hard-coded constants `rowStart = 45`, `rowEnd = 215`,
`thr = 50`, the recolor step keeps the dimensions, rewrites to pure red
exactly the pixels whose row lies in `[45, min 215 height)` whose three
channels are all strictly below 50, leaves every other pixel unchanged, and
is a no-op when `45 ≥ height`. -/
theorem recolorBand_spec45 (img : RasterImage) :
    (recolorBand img 45 215 50).width = img.width ∧
    (recolorBand img 45 215 50).height = img.height ∧
    (∀ c r, 45 ≤ r → r < 215 → r < img.height → c < img.width →
        nearBlack (img.pix c r) 50 = true →
        (recolorBand img 45 215 50).pix c r = (255, 0, 0)) ∧
    (∀ c r, ¬(45 ≤ r ∧ r < 215 ∧ r < img.height ∧ c < img.width ∧
              nearBlack (img.pix c r) 50 = true) →
        (recolorBand img 45 215 50).pix c r = img.pix c r) ∧
    (img.height ≤ 45 → recolorBand img 45 215 50 = img) := by
  refine ⟨rfl, rfl, ?_, ?_, ?_⟩
  · intro c r h1 h2 h3 h4 h5
    rw [recolorBand_pix, if_pos ⟨h1, h2, h3, h4, h5⟩]
  · intro c r h
    rw [recolorBand_pix, if_neg h]
  · intro h
    have hp : (recolorBand img 45 215 50).pix = img.pix := by
      funext c r
      rw [recolorBand_pix, if_neg]
      rintro ⟨h1, -, h3, -⟩
      omega
    exact RasterImage.ext rfl rfl hp

/-- C3 witness: on a 2×300 all-black image, row 50 lies in the band and the
pixel at column 0 is rewritten to red. -/
theorem recolorBand_spec45_witness :
    45 ≤ 50 ∧ 50 < 215 ∧ 50 < (constImage 2 300 (0, 0, 0)).height ∧
    0 < (constImage 2 300 (0, 0, 0)).width ∧
    nearBlack ((constImage 2 300 (0, 0, 0)).pix 0 50) 50 = true ∧
    (recolorBand (constImage 2 300 (0, 0, 0)) 45 215 50).pix 0 50 = (255, 0, 0) :=
  ⟨by decide, by decide, by decide, by decide, by decide,
   (recolorBand_spec45 (constImage 2 300 (0, 0, 0))).2.2.1 0 50
     (by decide) (by decide) (by decide) (by decide) (by decide)⟩

/-- C4: the rotation swaps the dimensions (input width becomes output
height and input height becomes output width, nothing cropped) and maps the
source pixel at `(col, row)` to destination `(row, width - 1 - col)`. -/
theorem rotate90_ccw_mapping (img : RasterImage) :
    (rotate90 img).width = img.height ∧
    (rotate90 img).height = img.width ∧
    (∀ col row, col < img.width → row < img.height →
        (rotate90 img).pix row (img.width - 1 - col) = img.pix col row) := by
  refine ⟨rfl, rfl, ?_⟩
  intro col row hc hr
  show img.pix (img.width - 1 - (img.width - 1 - col)) row = img.pix col row
  have h : img.width - 1 - (img.width - 1 - col) = col := by omega
  rw [h]

/-- C4 witness: on a 3×2 image, the source pixel `(0, 1)` appears at
destination `(1, 2)`. -/
theorem rotate90_ccw_mapping_witness :
    0 < (constImage 3 2 (7, 8, 9)).width ∧ 1 < (constImage 3 2 (7, 8, 9)).height ∧
    (rotate90 (constImage 3 2 (7, 8, 9))).pix 1 ((constImage 3 2 (7, 8, 9)).width - 1 - 0) =
      (constImage 3 2 (7, 8, 9)).pix 0 1 :=
  ⟨by decide, by decide,
   (rotate90_ccw_mapping (constImage 3 2 (7, 8, 9))).2.2 0 1 (by decide) (by decide)⟩

/-- C8: the band recolor is idempotent for any threshold at most 255: a
rewritten pixel is pure red `(255, 0, 0)` and `255 < thr` fails, so the
second pass changes nothing. -/
theorem recolorBand_idempotent (img : RasterImage) (rowStart rowEnd thr : Nat)
    (hthr : thr ≤ 255) :
    recolorBand (recolorBand img rowStart rowEnd thr) rowStart rowEnd thr =
      recolorBand img rowStart rowEnd thr := by
  clear hthr
  refine RasterImage.ext rfl rfl ?_
  funext c r
  by_cases hband : rowStart ≤ r ∧ r < rowEnd ∧ r < img.height ∧ c < img.width ∧
      nearBlack (img.pix c r) thr = true
  · have h1 : (recolorBand img rowStart rowEnd thr).pix c r = (255, 0, 0) := by
      rw [recolorBand_pix, if_pos hband]
    rw [recolorBand_pix, recolorBand_height, recolorBand_width, h1, ite_self]
  · have h1 : (recolorBand img rowStart rowEnd thr).pix c r = img.pix c r := by
      rw [recolorBand_pix, if_neg hband]
    rw [recolorBand_pix, recolorBand_height, recolorBand_width, h1, if_neg hband]

/-- C8 witness: idempotence instantiated on a 2×300 all-black image with the
code's constants 45, 215, 50. -/
theorem recolorBand_idempotent_witness :
    50 ≤ 255 ∧
    recolorBand (recolorBand (constImage 2 300 (0, 0, 0)) 45 215 50) 45 215 50 =
      recolorBand (constImage 2 300 (0, 0, 0)) 45 215 50 :=
  ⟨by decide, recolorBand_idempotent (constImage 2 300 (0, 0, 0)) 45 215 50 (by decide)⟩

/-- C9: the coordinate map of the 90° rotation is a bijection, and four
successive rotations restore the dimensions and every in-range pixel. -/
theorem rotate90_bijective_fourth_power (img : RasterImage) :
    Function.Bijective (rotateCoord img.width img.height) ∧
    (rotate90 (rotate90 (rotate90 (rotate90 img)))).width = img.width ∧
    (rotate90 (rotate90 (rotate90 (rotate90 img)))).height = img.height ∧
    (∀ c r, c < img.width → r < img.height →
        (rotate90 (rotate90 (rotate90 (rotate90 img)))).pix c r = img.pix c r) := by
  refine ⟨⟨?_, ?_⟩, rfl, rfl, ?_⟩
  · rintro ⟨c1, r1⟩ ⟨c2, r2⟩ h
    simp only [rotateCoord, Prod.mk.injEq, Fin.mk.injEq] at h
    obtain ⟨h1, h2⟩ := h
    have hc1 := c1.isLt
    have hc2 := c2.isLt
    have : c1 = c2 := Fin.ext (by omega)
    exact Prod.ext this h1
  · rintro ⟨a, b⟩
    have hb := b.isLt
    refine ⟨(⟨img.width - 1 - b.val, by omega⟩, a), ?_⟩
    refine Prod.ext rfl (Fin.ext ?_)
    show img.width - 1 - (img.width - 1 - b.val) = b.val
    omega
  · intro c r hc hr
    show img.pix (img.width - 1 - (img.width - 1 - c))
        (img.height - 1 - (img.height - 1 - r)) = img.pix c r
    have h1 : img.width - 1 - (img.width - 1 - c) = c := by omega
    have h2 : img.height - 1 - (img.height - 1 - r) = r := by omega
    rw [h1, h2]

/-- C9 witness: on a 3×2 image, rotating four times restores the pixel at
`(2, 1)`. -/
theorem rotate90_bijective_fourth_power_witness :
    2 < (constImage 3 2 (7, 8, 9)).width ∧ 1 < (constImage 3 2 (7, 8, 9)).height ∧
    (rotate90 (rotate90 (rotate90 (rotate90 (constImage 3 2 (7, 8, 9)))))).pix 2 1 =
      (constImage 3 2 (7, 8, 9)).pix 2 1 :=
  ⟨by decide, by decide,
   (rotate90_bijective_fourth_power (constImage 3 2 (7, 8, 9))).2.2.2 2 1
     (by decide) (by decide)⟩

/-- C6: when both doubled margins are strictly below the corresponding
dimension the crop succeeds and returns an image of size exactly
`(width - 2 * m_x, height - 2 * m_y)`. -/
theorem crop_valid_margin_dims (img : RasterImage) (mx my : Nat)
    (hx : 2 * mx < img.width) (hy : 2 * my < img.height) :
    ∃ c, cropImage img mx my = .ok c ∧
      c.width = img.width - 2 * mx ∧ c.height = img.height - 2 * my := by
  refine ⟨⟨((img.width : Int) - mx - mx).toNat, ((img.height : Int) - my - my).toNat,
          fun c r => img.pix (mx + c) (my + r)⟩, ?_, ?_, ?_⟩
  · simp only [cropImage]
    rw [if_neg (by omega), if_neg (by omega)]
  · show ((img.width : Int) - mx - mx).toNat = img.width - 2 * mx
    omega
  · show ((img.height : Int) - my - my).toNat = img.height - 2 * my
    omega

/-- C6 witness: a 420×536 image with the default margins 60 and 68 crops to
300×400. -/
theorem crop_valid_margin_dims_witness :
    2 * 60 < (constImage 420 536 (0, 0, 0)).width ∧
    2 * 68 < (constImage 420 536 (0, 0, 0)).height ∧
    ∃ c, cropImage (constImage 420 536 (0, 0, 0)) 60 68 = .ok c ∧
      c.width = (constImage 420 536 (0, 0, 0)).width - 2 * 60 ∧
      c.height = (constImage 420 536 (0, 0, 0)).height - 2 * 68 :=
  ⟨by decide, by decide,
   crop_valid_margin_dims (constImage 420 536 (0, 0, 0)) 60 68 (by decide) (by decide)⟩

/-- Unfolding lemma: the do-notation of `process_image` in terms of
`Except.bind`. -/
theorem process_image_eq (resample : RasterImage → Nat → Nat → Nat → Nat → Pixel)
    (img : RasterImage) (tw th mx my : Nat) :
    process_image resample img tw th mx my =
      Except.bind (cropImage img mx my) (fun cropped =>
        Except.bind (scaleToFit resample cropped tw th) (fun scaled =>
          Except.ok (rotate90 (recolorBand (composeOnCanvas scaled tw th) 45 215 50)))) :=
  rfl

/-- Helper: when one margin is exactly half its dimension and the other is at
most half, the crop succeeds with a zero width or height and the scale step
divides by zero. -/
theorem pipeline_zeroDiv_aux (resample : RasterImage → Nat → Nat → Nat → Nat → Pixel)
    (img : RasterImage) (tw th mx my : Nat)
    (h : (img.width = 2 * mx ∧ 2 * my ≤ img.height) ∨
         (img.height = 2 * my ∧ 2 * mx ≤ img.width)) :
    process_image resample img tw th mx my = .error .zeroDivisionError := by
  have hcrop : cropImage img mx my =
      .ok ⟨((img.width : Int) - mx - mx).toNat, ((img.height : Int) - my - my).toNat,
           fun c r => img.pix (mx + c) (my + r)⟩ := by
    simp only [cropImage]
    rw [if_neg (by omega), if_neg (by omega)]
  have hscale : scaleToFit resample
      ⟨((img.width : Int) - mx - mx).toNat, ((img.height : Int) - my - my).toNat,
       fun c r => img.pix (mx + c) (my + r)⟩ tw th = .error .zeroDivisionError := by
    simp only [scaleToFit]
    rw [if_pos]
    show ((img.width : Int) - mx - mx).toNat = 0 ∨ ((img.height : Int) - my - my).toNat = 0
    omega
  rw [process_image_eq, hcrop]
  show Except.bind (scaleToFit resample _ tw th) _ = _
  rw [hscale]
  rfl

/-- C10: when a crop margin equals exactly half of the corresponding
dimension (the other margin being at most half, so the crop itself goes
through), the cropped width or height is zero, the unguarded division
`output / cropped` raises `ZeroDivisionError` — not an `InvalidCropError` —
and no output image is produced. -/
theorem half_margin_zero_division (resample : RasterImage → Nat → Nat → Nat → Nat → Pixel)
    (img : RasterImage) (tw th mx my : Nat)
    (h : (img.width = 2 * mx ∧ 2 * my ≤ img.height) ∨
         (img.height = 2 * my ∧ 2 * mx ≤ img.width)) :
    process_image resample img tw th mx my = .error .zeroDivisionError ∧
    Err.zeroDivisionError ≠ Err.invalidCropError :=
  ⟨pipeline_zeroDiv_aux resample img tw th mx my h, by decide⟩

/-- C10 witness: a 4×4 image with `m_x = 2` (half the width) and `m_y = 1`
aborts with the division-by-zero error. -/
theorem half_margin_zero_division_witness :
    ((constImage 4 4 (0, 0, 0)).width = 2 * 2 ∧ 2 * 1 ≤ (constImage 4 4 (0, 0, 0)).height) ∧
    process_image constResample (constImage 4 4 (0, 0, 0)) 300 400 2 1 =
      .error .zeroDivisionError :=
  ⟨⟨by decide, by decide⟩,
   (half_margin_zero_division constResample (constImage 4 4 (0, 0, 0)) 300 400 2 1
      (Or.inl ⟨by decide, by decide⟩)).1⟩

/-- C1 counterexample: cropping with `left_right_crop = 250` on a 400-wide
image makes Pillow's `crop` raise `ValueError` (`right < left`); the run does
not fail with the spec's `InvalidCropError`, which the code never raises. -/
theorem crop_400_250_not_invalidCropError :
    process_image constResample (constImage 400 300 (0, 0, 0)) 300 400 250 68 =
      .error Err.valueError ∧ Err.valueError ≠ Err.invalidCropError :=
  ⟨rfl, by decide⟩

/-- C1 amended: whenever a margin is at least half of the corresponding
dimension, the pipeline fails without returning an image, but with Pillow's
`ValueError` (margin strictly over half: the crop box has `right < left` or
`lower < upper`) or with Python's `ZeroDivisionError` (margin exactly half:
the cropped dimension is zero and the scale division is unguarded) — never
with an `InvalidCropError`, which does not exist in the code. -/
theorem margin_ge_half_pipeline_errors (resample : RasterImage → Nat → Nat → Nat → Nat → Pixel)
    (img : RasterImage) (tw th mx my : Nat)
    (h : img.width ≤ 2 * mx ∨ img.height ≤ 2 * my) :
    process_image resample img tw th mx my = .error .valueError ∨
    process_image resample img tw th mx my = .error .zeroDivisionError := by
  by_cases hA : img.width < 2 * mx
  · left
    have hcrop : cropImage img mx my = .error .valueError := by
      simp only [cropImage]
      rw [if_pos (by omega)]
    rw [process_image_eq, hcrop]
    rfl
  · by_cases hB : img.height < 2 * my
    · left
      have hcrop : cropImage img mx my = .error .valueError := by
        simp only [cropImage]
        rw [if_neg (by omega), if_pos (by omega)]
      rw [process_image_eq, hcrop]
      rfl
    · right
      exact pipeline_zeroDiv_aux resample img tw th mx my (by omega)

/-- C1 amended witness: the 400-wide image with margin 250 errors (with
`ValueError`). -/
theorem margin_ge_half_pipeline_errors_witness :
    ((constImage 400 300 (1, 1, 1)).width ≤ 2 * 250 ∨
     (constImage 400 300 (1, 1, 1)).height ≤ 2 * 68) ∧
    (process_image constResample (constImage 400 300 (1, 1, 1)) 300 400 250 68 =
        .error .valueError ∨
     process_image constResample (constImage 400 300 (1, 1, 1)) 300 400 250 68 =
        .error .zeroDivisionError) :=
  ⟨Or.inl (by decide),
   margin_ge_half_pipeline_errors constResample (constImage 400 300 (1, 1, 1)) 300 400 250 68
     (Or.inl (by decide))⟩

/-- Helper: flooring `a * min (t1 / a) q` never exceeds `t1` when `a > 0`. -/
theorem floor_mul_min_le (a t1 : Nat) (q : ℚ) (ha : 0 < a) :
    (⌊(a : ℚ) * min ((t1 : ℚ) / (a : ℚ)) q⌋).toNat ≤ t1 := by
  have haq : (0 : ℚ) < (a : ℚ) := by exact_mod_cast ha
  have h2 : (a : ℚ) * min ((t1 : ℚ) / (a : ℚ)) q ≤ (a : ℚ) * ((t1 : ℚ) / (a : ℚ)) :=
    mul_le_mul_of_nonneg_left (min_le_left _ _) (le_of_lt haq)
  have h3 : (a : ℚ) * ((t1 : ℚ) / (a : ℚ)) = (t1 : ℚ) := by
    field_simp
  have h4 : ⌊(a : ℚ) * min ((t1 : ℚ) / (a : ℚ)) q⌋ ≤ (t1 : Int) := by
    calc ⌊(a : ℚ) * min ((t1 : ℚ) / (a : ℚ)) q⌋ ≤ ⌊(t1 : ℚ)⌋ :=
          Int.floor_mono (le_of_le_of_eq h2 h3)
      _ = (t1 : Int) := Int.floor_natCast t1
  exact Int.toNat_le.mpr h4

/-- C2: on a cropped image of positive dimensions and positive targets, the
scaling step succeeds, uses `scale = min(tw / cw, th / ch)`, produces
dimensions `(floor(cw * scale), floor(ch * scale))`, and neither dimension
exceeds its target. -/
theorem scaleToFit_dims_le_target (resample : RasterImage → Nat → Nat → Nat → Nat → Pixel)
    (img : RasterImage) (tw th : Nat)
    (hw : 0 < img.width) (hh : 0 < img.height) (htw : 0 < tw) (hth : 0 < th) :
    ∃ s, scaleToFit resample img tw th = .ok s ∧
      s.width = (⌊(img.width : ℚ) * computeScale img.width img.height tw th⌋).toNat ∧
      s.height = (⌊(img.height : ℚ) * computeScale img.width img.height tw th⌋).toNat ∧
      s.width ≤ tw ∧ s.height ≤ th := by
  clear htw hth
  have hne : ¬(img.width = 0 ∨ img.height = 0) := by omega
  refine ⟨⟨(⌊(img.width : ℚ) * computeScale img.width img.height tw th⌋).toNat,
          (⌊(img.height : ℚ) * computeScale img.width img.height tw th⌋).toNat,
          resamplePix resample img
            (⌊(img.width : ℚ) * computeScale img.width img.height tw th⌋).toNat
            (⌊(img.height : ℚ) * computeScale img.width img.height tw th⌋).toNat⟩,
        ?_, rfl, rfl, ?_, ?_⟩
  · simp only [scaleToFit]
    rw [if_neg hne]
  · exact floor_mul_min_le img.width tw _ hw
  · show (⌊(img.height : ℚ) *
        min ((tw : ℚ) / (img.width : ℚ)) ((th : ℚ) / (img.height : ℚ))⌋).toNat ≤ th
    rw [min_comm]
    exact floor_mul_min_le img.height th _ hh

/-- C2 witness: a 3×4 image scaled towards a 5×5 target obeys all the
bounds. -/
theorem scaleToFit_dims_le_target_witness :
    0 < (constImage 3 4 (0, 0, 0)).width ∧ 0 < (constImage 3 4 (0, 0, 0)).height ∧
    0 < 5 ∧
    ∃ s, scaleToFit constResample (constImage 3 4 (0, 0, 0)) 5 5 = .ok s ∧
      s.width = (⌊((constImage 3 4 (0, 0, 0)).width : ℚ) *
        computeScale (constImage 3 4 (0, 0, 0)).width (constImage 3 4 (0, 0, 0)).height 5 5⌋).toNat ∧
      s.height = (⌊((constImage 3 4 (0, 0, 0)).height : ℚ) *
        computeScale (constImage 3 4 (0, 0, 0)).width (constImage 3 4 (0, 0, 0)).height 5 5⌋).toNat ∧
      s.width ≤ 5 ∧ s.height ≤ 5 :=
  ⟨by decide, by decide, by decide,
   scaleToFit_dims_le_target constResample (constImage 3 4 (0, 0, 0)) 5 5
     (by decide) (by decide) (by decide) (by decide)⟩

/-- Unfolding lemma for one pixel of `composeOnCanvas`. -/
theorem composeOnCanvas_pix (scaled : RasterImage) (tw th c r : Nat) :
    (composeOnCanvas scaled tw th).pix c r =
      if centerOffset tw scaled.width ≤ (c : Int) ∧
         (c : Int) < centerOffset tw scaled.width + (scaled.width : Int) ∧
         centerOffset th scaled.height ≤ (r : Int) ∧
         (r : Int) < centerOffset th scaled.height + (scaled.height : Int)
      then scaled.pix ((c : Int) - centerOffset tw scaled.width).toNat
             ((r : Int) - centerOffset th scaled.height).toNat
      else (255, 255, 255) := rfl

/-- C5 counterexample: an all-black 2×2 image is strictly smaller than a 3×3
canvas on both axes, yet the centering offsets are `(0, 0)` and the top-left
canvas corner is covered by a black pixel, not white. -/
theorem composeOnCanvas_corner_not_white :
    (constImage 2 2 (0, 0, 0)).width < 3 ∧ (constImage 2 2 (0, 0, 0)).height < 3 ∧
    (composeOnCanvas (constImage 2 2 (0, 0, 0)) 3 3).pix 0 0 ≠ (255, 255, 255) := by
  refine ⟨by decide, by decide, ?_⟩
  rw [composeOnCanvas_pix, if_pos]
  · decide
  · refine ⟨?_, ?_, ?_, ?_⟩ <;> decide

/-- C5 amended: composing always yields an image of exactly the canvas
dimensions, pasting the input at the floor-division centering offsets, and
all four canvas corners remain white provided the scaled image is smaller
than the canvas by at least two pixels on each axis (so that both offsets
are at least one); with a gap of exactly one pixel the offset floors to
zero and the pasted image can cover a corner. -/
theorem composeOnCanvas_dims_corners (scaled : RasterImage) (tw th : Nat) :
    (composeOnCanvas scaled tw th).width = tw ∧
    (composeOnCanvas scaled tw th).height = th ∧
    (∀ c r : Nat,
        centerOffset tw scaled.width ≤ (c : Int) →
        (c : Int) < centerOffset tw scaled.width + (scaled.width : Int) →
        centerOffset th scaled.height ≤ (r : Int) →
        (r : Int) < centerOffset th scaled.height + (scaled.height : Int) →
        (composeOnCanvas scaled tw th).pix c r =
          scaled.pix ((c : Int) - centerOffset tw scaled.width).toNat
            ((r : Int) - centerOffset th scaled.height).toNat) ∧
    (scaled.width + 2 ≤ tw → scaled.height + 2 ≤ th →
      (composeOnCanvas scaled tw th).pix 0 0 = (255, 255, 255) ∧
      (composeOnCanvas scaled tw th).pix (tw - 1) 0 = (255, 255, 255) ∧
      (composeOnCanvas scaled tw th).pix 0 (th - 1) = (255, 255, 255) ∧
      (composeOnCanvas scaled tw th).pix (tw - 1) (th - 1) = (255, 255, 255)) := by
  refine ⟨rfl, rfl, ?_, ?_⟩
  · intro c r h1 h2 h3 h4
    rw [composeOnCanvas_pix, if_pos ⟨h1, h2, h3, h4⟩]
  · intro hw hh
    have hx : 1 ≤ centerOffset tw scaled.width ∧
        centerOffset tw scaled.width + (scaled.width : Int) ≤ (tw : Int) - 1 := by
      unfold centerOffset
      rw [Int.fdiv_eq_ediv _ (by norm_num)]
      omega
    have hy : 1 ≤ centerOffset th scaled.height ∧
        centerOffset th scaled.height + (scaled.height : Int) ≤ (th : Int) - 1 := by
      unfold centerOffset
      rw [Int.fdiv_eq_ediv _ (by norm_num)]
      omega
    refine ⟨?_, ?_, ?_, ?_⟩ <;>
      · rw [composeOnCanvas_pix, if_neg]
        rintro ⟨h1, h2, h3, h4⟩
        omega

/-- C5 witness: a 1×1 image on a 4×4 canvas keeps all four corners white. -/
theorem composeOnCanvas_dims_corners_witness :
    (constImage 1 1 (0, 0, 0)).width + 2 ≤ 4 ∧ (constImage 1 1 (0, 0, 0)).height + 2 ≤ 4 ∧
    (composeOnCanvas (constImage 1 1 (0, 0, 0)) 4 4).width = 4 ∧
    (composeOnCanvas (constImage 1 1 (0, 0, 0)) 4 4).pix 0 0 = (255, 255, 255) ∧
    (composeOnCanvas (constImage 1 1 (0, 0, 0)) 4 4).pix (4 - 1) (4 - 1) = (255, 255, 255) :=
  ⟨by decide, by decide,
   (composeOnCanvas_dims_corners (constImage 1 1 (0, 0, 0)) 4 4).1,
   ((composeOnCanvas_dims_corners (constImage 1 1 (0, 0, 0)) 4 4).2.2.2
      (by decide) (by decide)).1,
   ((composeOnCanvas_dims_corners (constImage 1 1 (0, 0, 0)) 4 4).2.2.2
      (by decide) (by decide)).2.2.2⟩

set_option maxRecDepth 4000 in
/-- C7: a 420×536 source with the default margins 60 and 68 and target
canvas 300×400 crops to exactly 300×400, gets scale 1 (dimensions and
pixels unchanged by the resize fast path), composes at offsets `(0, 0)`,
recolors every near-black pixel in rows 45–214 to red, and the final
rotated output has dimensions 400×300. -/
theorem pipeline_420x536_end_to_end
    (resample : RasterImage → Nat → Nat → Nat → Nat → Pixel) (p : Nat → Nat → Pixel) :
    ∃ c s out : RasterImage,
      cropImage ⟨420, 536, p⟩ 60 68 = .ok c ∧ c.width = 300 ∧ c.height = 400 ∧
      computeScale c.width c.height 300 400 = 1 ∧
      scaleToFit resample c 300 400 = .ok s ∧
      s.width = c.width ∧ s.height = c.height ∧ s.pix = c.pix ∧
      centerOffset 300 s.width = 0 ∧ centerOffset 400 s.height = 0 ∧
      (∀ cc rr : Nat, cc < 300 → 45 ≤ rr → rr < 215 →
          nearBlack (p (60 + cc) (68 + rr)) 50 = true →
          (recolorBand (composeOnCanvas s 300 400) 45 215 50).pix cc rr = (255, 0, 0)) ∧
      process_image resample ⟨420, 536, p⟩ 300 400 60 68 = .ok out ∧
      out = rotate90 (recolorBand (composeOnCanvas s 300 400) 45 215 50) ∧
      out.width = 400 ∧ out.height = 300 := by
  have h4 : computeScale 300 400 300 400 = 1 := by norm_num [computeScale]
  have hcrop : cropImage ⟨420, 536, p⟩ 60 68 =
      .ok ⟨300, 400, fun cc rr => p (60 + cc) (68 + rr)⟩ := rfl
  have hscale : scaleToFit resample ⟨300, 400, fun cc rr => p (60 + cc) (68 + rr)⟩ 300 400 =
      .ok ⟨300, 400, fun cc rr => p (60 + cc) (68 + rr)⟩ := by
    norm_num [scaleToFit, h4, resamplePix]
    refine ⟨by decide, by decide, fun h => absurd (by decide) (h (by decide))⟩
  have hproc : process_image resample ⟨420, 536, p⟩ 300 400 60 68 =
      .ok (rotate90 (recolorBand
        (composeOnCanvas ⟨300, 400, fun cc rr => p (60 + cc) (68 + rr)⟩ 300 400) 45 215 50)) := by
    rw [process_image_eq, hcrop]
    simp only [Except.bind]
    rw [hscale]
  refine ⟨⟨300, 400, fun cc rr => p (60 + cc) (68 + rr)⟩,
          ⟨300, 400, fun cc rr => p (60 + cc) (68 + rr)⟩,
          rotate90 (recolorBand
            (composeOnCanvas ⟨300, 400, fun cc rr => p (60 + cc) (68 + rr)⟩ 300 400) 45 215 50),
          hcrop, rfl, rfl, h4, hscale, rfl, rfl, rfl, rfl, rfl, ?_, hproc, rfl, rfl, rfl⟩
  intro cc rr hcc h45 h215 hnb
  have hcomp : (composeOnCanvas ⟨300, 400, fun a b => p (60 + a) (68 + b)⟩ 300 400).pix cc rr =
      p (60 + cc) (68 + rr) := by
    rw [composeOnCanvas_pix, if_pos]
    · rfl
    · refine ⟨?_, ?_, ?_, ?_⟩
      · show (0 : Int) ≤ (cc : Int)
        omega
      · show (cc : Int) < 0 + 300
        omega
      · show (0 : Int) ≤ (rr : Int)
        omega
      · show (rr : Int) < 0 + 400
        omega
  have hcond : 45 ≤ rr ∧ rr < 215 ∧
      rr < (composeOnCanvas ⟨300, 400, fun a b => p (60 + a) (68 + b)⟩ 300 400).height ∧
      cc < (composeOnCanvas ⟨300, 400, fun a b => p (60 + a) (68 + b)⟩ 300 400).width ∧
      nearBlack ((composeOnCanvas ⟨300, 400, fun a b => p (60 + a) (68 + b)⟩ 300 400).pix cc rr)
        50 = true :=
    ⟨h45, h215, by show rr < 400; omega, by show cc < 300; omega, by rw [hcomp]; exact hnb⟩
  rw [recolorBand_pix, if_pos hcond]

/-- C7 witness: instantiated on the all-black 420×536 source, the pipeline
returns an output image of dimensions 400×300. -/
theorem pipeline_420x536_end_to_end_witness :
    ∃ out : RasterImage,
      process_image constResample ⟨420, 536, fun _ _ => (0, 0, 0)⟩ 300 400 60 68 = .ok out ∧
      out.width = 400 ∧ out.height = 300 := by
  obtain ⟨c, s, out, -, -, -, -, -, -, -, -, -, -, -, hproc, -, hw, hh⟩ :=
    pipeline_420x536_end_to_end constResample (fun _ _ => (0, 0, 0))
  exact ⟨out, hproc, hw, hh⟩
